/- Verification of the Transaction-Tracker ledger core.

Shallow embedding of the repository's JavaScript source:
  - transaction-controller (src/unnamed/part_000): balance oracle, mutation
    guard, cache invalidation, bulk loader;
  - src/utils/utility.js: daily-summary recalculation and the
    invalid-transaction detector;
  - prisma/migrations/*.sql: the persisted schema (the "type" column is the
    Postgres enum TransactionType = ('IN','OUT'); the only unique constraint
    on "Transaction" is the auto-assigned primary key "id").

Numbers: JS numbers are modelled as Rat (the spec itself calls floating
accumulation a defect to avoid), instants as Int (epoch milliseconds).
-/
import Mathlib

namespace TransactionTracker

/-- A persisted `Transaction` row: auto-assigned `id`, epoch-ms `timestamp`,
`type` (a string at the API layer; the store only accepts "IN"/"OUT"),
strictly-positive `amount`. -/
structure Txn where
  id : Nat
  timestamp : Int
  type : String
  amount : Rat
deriving DecidableEq, Repr

/-- The signed contribution of one row, mirroring the SQL
`CASE WHEN type = 'IN' THEN amount ELSE -amount END`. -/
def signedAmount (x : Txn) : Rat :=
  if x.type = "IN" then x.amount else -x.amount

/-- Function `getBalanceAtTimestamp` (transaction-controller, lines 7-42), the database
path: `SELECT COALESCE(SUM(CASE WHEN type='IN' THEN amount ELSE -amount END),0)
FROM "Transaction" WHERE timestamp <= t`.  The Redis front end only caches this
value; the authoritative computation is the query embedded here. -/
def getBalanceAtTimestamp (log : List Txn) (t : Int) : Rat :=
  (log.filter (fun x => x.timestamp ≤ t)).foldl (fun s x => s + signedAmount x) 0

theorem foldl_add_signed (l : List Txn) (a : Rat) :
    l.foldl (fun s x => s + signedAmount x) a = a + (l.map signedAmount).sum := by
  induction l generalizing a with
  | nil => simp
  | cons x xs ih => simp [List.foldl_cons, ih (a + signedAmount x), add_assoc]

/-- C1: for every instant t, `getBalanceAtTimestamp` returns the exact signed
sum (+amount for IN, -amount for OUT) over the transactions with timestamp ≤ t,
and the result is invariant under permuting (reordering the insertion of) the
log. -/
theorem getBalanceAtTimestamp_eq_signedSum (l1 l2 : List Txn) (t : Int)
    (h : l1.Perm l2) :
    getBalanceAtTimestamp l1 t
      = ((l2.filter (fun x => x.timestamp ≤ t)).map signedAmount).sum := by
  have hperm : (l1.filter (fun x => x.timestamp ≤ t)).Perm
      (l2.filter (fun x => x.timestamp ≤ t)) := h.filter _
  calc getBalanceAtTimestamp l1 t
      = ((l1.filter (fun x => x.timestamp ≤ t)).map signedAmount).sum := by
        simpa using foldl_add_signed (l1.filter (fun x => x.timestamp ≤ t)) 0
    _ = ((l2.filter (fun x => x.timestamp ≤ t)).map signedAmount).sum :=
        (hperm.map signedAmount).sum_eq

/-- Witness for C1 at a concrete two-element log and its reversal. -/
theorem getBalanceAtTimestamp_eq_signedSum_witness :
    getBalanceAtTimestamp
        [⟨1, 1, "IN", 100⟩, ⟨2, 2, "OUT", 30⟩] 2
      = ((([⟨2, 2, "OUT", 30⟩, ⟨1, 1, "IN", 100⟩] :
            List Txn).filter (fun x => x.timestamp ≤ 2)).map signedAmount).sum := by
  have h := getBalanceAtTimestamp_eq_signedSum
    [⟨1, 1, "IN", 100⟩, ⟨2, 2, "OUT", 30⟩]
    [⟨2, 2, "OUT", 30⟩, ⟨1, 1, "IN", 100⟩] 2 (by decide)
  exact h

/-- An InvalidTransaction marker: the referenced transaction id plus the
reason.  The source's reason string is
`Would result in negative balance: ${newBalance.toFixed(2)}`; the number it
interpolates — the negative prospective balance, i.e. the shortfall — is
modelled directly. -/
structure Marker where
  transactionId : Nat
  shortfall : Rat
deriving DecidableEq, Repr

/-- One iteration of the loop body of `markInvalidTransactions`
(utility.js, lines 110-124): compute the prospective balance, push a marker
when it is negative, clamp the running balance to `max 0`. -/
def markStep (acc : List Marker × Rat) (x : Txn) : List Marker × Rat :=
  let newBalance := if x.type = "IN" then acc.2 + x.amount else acc.2 - x.amount
  let markers := if newBalance < 0 then acc.1 ++ [⟨x.id, newBalance⟩] else acc.1
  (markers, max 0 newBalance)

/-- Function `markInvalidTransactions` (utility.js, lines 88-144): stream the log in
ascending-timestamp order with a running balance starting at 0, collecting
markers.  The cursor paging and batched inserts only chunk the same scan, so
the embedding takes the timestamp-ordered log as a flat list and returns the
marker list together with the final running balance. -/
def markInvalidTransactions (log : List Txn) : List Marker × Rat :=
  log.foldl markStep ([], 0)

/-- The detector as the spec words it (§4.4): recurse over the chronological
log, emit a marker exactly when the prospective balance is negative, and
continue from the running balance clamped to 0. -/
def detectorSpec (running : Rat) : List Txn → List Marker × Rat
  | [] => ([], running)
  | x :: xs =>
    let prospective :=
      if x.type = "IN" then running + x.amount else running - x.amount
    let rest := detectorSpec (max 0 prospective) xs
    ((if prospective < 0 then [⟨x.id, prospective⟩] else []) ++ rest.1, rest.2)

theorem foldl_markStep_eq_detectorSpec (l : List Txn) (acc : List Marker)
    (r : Rat) :
    l.foldl markStep (acc, r) = (acc ++ (detectorSpec r l).1, (detectorSpec r l).2) := by
  induction l generalizing acc r with
  | nil => simp [detectorSpec]
  | cons x xs ih =>
    simp only [List.foldl_cons, markStep, detectorSpec]
    by_cases hneg : (if x.type = "IN" then r + x.amount else r - x.amount) < 0
    · simp [hneg, ih, List.append_assoc]
    · simp [hneg, ih]

/-- C2: the detector emits a marker for exactly the transactions whose
prospective balance (running + amount for IN, running − amount for OUT) is
negative, recording the shortfall, and clamps the running balance to
max(0, prospective) after each transaction — i.e. the scan equals the
recursive specification — and on the log [IN 100 @ day 1, OUT 150 @ day 2]
it marks exactly the day-2 transaction with shortfall −50 and ends with
running balance clamped to 0. -/
theorem markInvalidTransactions_spec :
    (∀ log : List Txn, markInvalidTransactions log = detectorSpec 0 log)
    ∧ markInvalidTransactions
        [⟨1, 1, "IN", 100⟩, ⟨2, 2, "OUT", 150⟩] = ([⟨2, -50⟩], 0) := by
  constructor
  · intro log
    simpa using foldl_markStep_eq_detectorSpec log [] 0
  · have hs : ¬ (("OUT" : String) = "IN") := by decide
    norm_num [markInvalidTransactions, markStep, hs]

/-- The summand one bucket contributes to the window sum in
`getBalancesAtTimestamps` (transaction-controller, lines 45-77).  The inner
subquery emits one row per transaction whose timestamp is in the requested
set; `GROUP BY timestamp_bucket` after `LEFT JOIN "Transaction" t ON
t.timestamp <= bucket` therefore groups, for each distinct bucket value, the
bucket's multiplicity many copies of every transaction at or before it. -/
def bucketGroupSum (log : List Txn) (b : Int) : Rat :=
  ((log.filter (fun x => x.timestamp = b)).length : Rat) * getBalanceAtTimestamp log b

/-- Function `getBalancesAtTimestamps` (transaction-controller, lines 45-77), read
charitably: the string-joined `IN (...)` list is taken as the requested set of
instants, and the `SUM(...) OVER (ORDER BY timestamp_bucket)` combined with
`GROUP BY timestamp_bucket` is read as the running sum, over buckets in
ascending order, of each bucket's group sum.  Buckets come only from
`"Transaction"` rows whose timestamp is in the requested set, so a requested
instant with no transaction exactly at it produces no entry at all. -/
def getBalancesAtTimestamps (log : List Txn) (ts : List Int) : List (Int × Rat) :=
  let buckets :=
    List.insertionSort (· ≤ ·)
      (((log.map Txn.timestamp).filter (fun b => b ∈ ts)).dedup)
  buckets.map (fun b =>
    (b, ((buckets.filter (fun c => c ≤ b)).map (bucketGroupSum log)).sum))

/-- C3 fails on the code: on the log [IN 100 @ 10, IN 50 @ 20] with requested
instants {10, 20, 30}, the batch computation returns 250 for instant 20 where
the single-instant oracle returns 150 (each bucket re-adds the full prefix
sum), and returns no entry at all for instant 30 (not a transaction
timestamp) where the oracle returns 150. -/
theorem getBalancesAtTimestamps_deviates_from_oracle :
    getBalancesAtTimestamps
        [⟨1, 10, "IN", 100⟩, ⟨2, 20, "IN", 50⟩] [10, 20, 30]
      = [(10, 100), (20, 250)]
    ∧ getBalanceAtTimestamp [⟨1, 10, "IN", 100⟩, ⟨2, 20, "IN", 50⟩] 20 = 150
    ∧ (getBalancesAtTimestamps
        [⟨1, 10, "IN", 100⟩, ⟨2, 20, "IN", 50⟩] [10, 20, 30]).find?
          (fun p => p.1 = 30) = none
    ∧ getBalanceAtTimestamp [⟨1, 10, "IN", 100⟩, ⟨2, 20, "IN", 50⟩] 30 = 150
    ∧ (250 : Rat) ≠ 150 := by
  refine ⟨?_, ?_, ?_, ?_, ?_⟩ <;>
    norm_num [getBalancesAtTimestamps, bucketGroupSum, getBalanceAtTimestamp,
      signedAmount, List.insertionSort, List.orderedInsert, List.dedup,
      List.find?]

/-- The caller-visible outcomes of `createTransaction`.  The error cases map
to the handler's distinct 400 responses; `created` is the 201 response
carrying the new row. -/
inductive CreateResp where
  | missingFields
  | invalidType
  | futureTimestamp
  | nonPositiveAmount
  | insufficientBalance (available requested : Rat)
  | created (t : Txn)
deriving DecidableEq, Repr

/-- Function `createTransaction` (transaction-controller, lines 128-204).  Body fields
arrive parsed: an absent or falsy field is `none` for the timestamp, `none` or
`""` for the type, `none` or `0` for the amount (JS `!timestamp || !type ||
!amount`).  String-level parse failure of the timestamp is below the precision
of the `Int` instant model.  Checks in source order: missing fields, type in
{IN, OUT}, future timestamp, positive amount, then — inside the atomic store
transaction, for OUT only — the balance gate `numericAmount > balanceAtTime`.
Every failing branch returns before any write, so it pairs the response with
the unchanged log. -/
def createTransaction (log : List Txn) (nextId : Nat) (timestamp : Option Int)
    (type : Option String) (amount : Option Rat) (now : Int) :
    CreateResp × List Txn :=
  match timestamp, type, amount with
  | some ts, some ty, some am =>
    if ty = "" ∨ am = 0 then (.missingFields, log)
    else if ¬ (ty = "IN" ∨ ty = "OUT") then (.invalidType, log)
    else if now < ts then (.futureTimestamp, log)
    else if am ≤ 0 then (.nonPositiveAmount, log)
    else if ty = "OUT" ∧ getBalanceAtTimestamp log ts < am then
      (.insufficientBalance (getBalanceAtTimestamp log ts) am, log)
    else
      (.created ⟨nextId, ts, ty, am⟩, log ++ [⟨nextId, ts, ty, am⟩])
  | _, _, _ => (.missingFields, log)

/-- C4: an otherwise-valid OUT create whose amount exceeds the balance at its
own timestamp fails with the insufficient-balance error carrying available and
requested amounts and leaves the log unchanged, while an otherwise-valid IN
create is never balance-gated: it always appends the new row. -/
theorem createTransaction_balance_gate :
    (∀ (log : List Txn) (nextId : Nat) (ts : Int) (am : Rat) (now : Int),
        0 < am → ts ≤ now → getBalanceAtTimestamp log ts < am →
        createTransaction log nextId (some ts) (some "OUT") (some am) now
          = (.insufficientBalance (getBalanceAtTimestamp log ts) am, log))
    ∧ (∀ (log : List Txn) (nextId : Nat) (ts : Int) (am : Rat) (now : Int),
        0 < am → ts ≤ now →
        createTransaction log nextId (some ts) (some "IN") (some am) now
          = (.created ⟨nextId, ts, "IN", am⟩, log ++ [⟨nextId, ts, "IN", am⟩])) := by
  have hOutEmpty : ¬ (("OUT" : String) = "") := by decide
  have hInEmpty : ¬ (("IN" : String) = "") := by decide
  have hInOut : ¬ (("IN" : String) = "OUT") := by decide
  constructor
  · intro log nextId ts am now hpos hnotfut hgate
    simp [createTransaction, hOutEmpty, ne_of_gt hpos, not_lt.mpr hnotfut,
      not_le.mpr hpos, hgate]
  · intro log nextId ts am now hpos hnotfut
    simp [createTransaction, hInEmpty, hInOut, ne_of_gt hpos,
      not_lt.mpr hnotfut, not_le.mpr hpos]

/-- Witness for C4: on the empty log, OUT 5 at instant 0 is rejected with
available 0 / requested 5, and IN 5 at instant 0 is created. -/
theorem createTransaction_balance_gate_witness :
    createTransaction [] 1 (some 0) (some "OUT") (some 5) 10
      = (.insufficientBalance 0 5, [])
    ∧ createTransaction [] 1 (some 0) (some "IN") (some 5) 10
      = (.created ⟨1, 0, "IN", 5⟩, [⟨1, 0, "IN", 5⟩]) := by
  constructor
  · have h := createTransaction_balance_gate.1 [] 1 0 5 10 (by norm_num)
      (by norm_num) (by norm_num [getBalanceAtTimestamp])
    simpa [getBalanceAtTimestamp] using h
  · exact createTransaction_balance_gate.2 [] 1 0 5 10 (by norm_num) (by norm_num)

/-- The Redis keys the controller uses: `balance:<iso-instant>` entries
(written by `getBalanceAtTimestamp`), the `invalid_transaction_count` entry
(written by `getInvalidTransactionCount`), and the `transaction_stats` entry
(written by `getTransactionStats`, modelled as its cached JSON payload). -/
structure Cache where
  balances : List (Int × Rat)
  invalidCount : Option Nat
  stats : Option String
deriving DecidableEq, Repr

/-- Function `invalidateBalanceCache` (transaction-controller, lines 388-407): scans
the `balance:*` keys, deletes those whose instant is ≥ `fromDate`
(`keyDate >= fromDate`), then deletes `invalid_transaction_count`.  The
`transaction_stats` key is not touched by this function. -/
def invalidateBalanceCache (c : Cache) (fromDate : Int) : Cache :=
  { balances := c.balances.filter (fun p => ¬ (fromDate ≤ p.1)),
    invalidCount := none,
    stats := c.stats }

/-- C5 fails on the code as stated: at a concrete cache holding balance
entries at instants 5 and 10, an invalid-count and a stats entry,
invalidating from instant 8 removes the instant-10 balance and the
invalid-count but leaves the global stats entry in place, contradicting
"clears ... both the invalid-transaction count and the global stats cache
entries". -/
theorem invalidateBalanceCache_keeps_stats :
    invalidateBalanceCache ⟨[(5, 100), (10, 50)], some 3, some "stats"⟩ 8
      = ⟨[(5, 100)], none, some "stats"⟩
    ∧ (invalidateBalanceCache
        ⟨[(5, 100), (10, 50)], some 3, some "stats"⟩ 8).stats ≠ none := by
  constructor
  · simp [invalidateBalanceCache]
  · simp [invalidateBalanceCache]

/-- C5 amended: invalidating from t removes exactly the cached balance
entries keyed by an instant ≥ t (those keyed < t survive unchanged) and clears
the cached invalid-transaction count; the global stats cache entry is left
untouched (it only expires via its TTL). -/
theorem invalidateBalanceCache_spec (c : Cache) (t k : Int) (v : Rat) :
    ((k, v) ∈ (invalidateBalanceCache c t).balances
      ↔ ((k, v) ∈ c.balances ∧ k < t))
    ∧ (invalidateBalanceCache c t).invalidCount = none
    ∧ (invalidateBalanceCache c t).stats = c.stats := by
  refine ⟨?_, rfl, rfl⟩
  simp [invalidateBalanceCache, List.mem_filter, not_le]

/-- Function `getBalanceExcludingTransaction` (transaction-controller, lines 352-363):
`SUM(CASE WHEN type='IN' THEN amount ELSE -amount END) FROM "Transaction"
WHERE timestamp <= t AND id != excludeId`. -/
def getBalanceExcludingTransaction (log : List Txn) (t : Int) (excludeId : Nat) : Rat :=
  (log.filter (fun x => x.timestamp ≤ t ∧ ¬ (x.id = excludeId))).foldl
    (fun s x => s + signedAmount x) 0

/-- The caller-visible outcomes of `updateTransaction`.  `storeRejected` is
the generic 500 "Failed to update transaction" produced when the write itself
is refused by the store layer — in particular when a type outside the
`TransactionType` enum ('IN','OUT') of prisma/migrations reaches the client,
which rejects it before writing anything. -/
inductive UpdateResp where
  | notFound
  | futureTimestamp
  | nonPositiveAmount
  | insufficientBalance (available requested : Rat)
  | storeRejected
  | updated (t : Txn)
deriving DecidableEq, Repr

/-- Function `updateTransaction` (transaction-controller, lines 207-299).  Falsy body
fields (absent, or `""` for type, `0` for amount) fall back to the existing
row's values (`timestamp ? ... : existing.timestamp`, `type || existing.type`,
`amount ? parseFloat(amount) : existing.amount`).  Checks in source order:
future timestamp, then non-positive amount only when the amount field was
truthy, then — for effective type OUT — the balance gate against the balance
excluding this row.  The handler performs no IN/OUT membership check on the
type (unlike `createTransaction`); an out-of-enum type flows to the store
write and surfaces as the generic failure, with nothing written. -/
def updateTransaction (log : List Txn) (id : Nat) (timestamp : Option Int)
    (type : Option String) (amount : Option Rat) (now : Int) :
    UpdateResp × List Txn :=
  match log.find? (fun x => x.id = id) with
  | none => (.notFound, log)
  | some existing =>
    let date := timestamp.getD existing.timestamp
    let newType :=
      match type with
      | some ty => if ty = "" then existing.type else ty
      | none => existing.type
    let newAmount :=
      match amount with
      | some a => if a = 0 then existing.amount else a
      | none => existing.amount
    if now < date then (.futureTimestamp, log)
    else if amount.getD 0 ≠ 0 ∧ newAmount ≤ 0 then (.nonPositiveAmount, log)
    else if newType = "OUT"
        ∧ getBalanceExcludingTransaction log date id < newAmount then
      (.insufficientBalance (getBalanceExcludingTransaction log date id)
        newAmount, log)
    else if newType = "IN" ∨ newType = "OUT" then
      (.updated ⟨id, date, newType, newAmount⟩,
        log.map (fun x => if x.id = id then ⟨id, date, newType, newAmount⟩ else x))
    else (.storeRejected, log)

/-- C6 fails on the code: updating the existing transaction 1 with the type
"FOO" is not caught by any handler validation (create would answer "Invalid
transaction type"; update has no such check) — the request reaches the store,
whose enum rejects it, and the caller sees the generic failure response, not a
response distinguishing "invalid type"; the stored row is unmodified. -/
theorem updateTransaction_type_unvalidated :
    updateTransaction [⟨1, 0, "IN", 100⟩] 1 none (some "FOO") none 10
      = (.storeRejected, [⟨1, 0, "IN", 100⟩]) := by
  have h1 : ¬ (("FOO" : String) = "") := by decide
  have h2 : ¬ (("FOO" : String) = "IN") := by decide
  have h3 : ¬ (("FOO" : String) = "OUT") := by decide
  norm_num [updateTransaction, List.find?, getBalanceExcludingTransaction,
    h1, h2, h3]

/-- C10 fails on the code as stated: supplying amount 0 to an update of the
OUT 150 transaction in the log [IN 100 @ 5, OUT 150 @ 6] is indeed treated as
"amount omitted" (so it is not rejected as non-positive), but the update does
not succeed — the balance gate, computed excluding the row itself, sees
100 < 150 and rejects with an insufficient-balance error. -/
theorem updateTransaction_zero_amount_gate_failure :
    updateTransaction [⟨1, 5, "IN", 100⟩, ⟨2, 6, "OUT", 150⟩] 2
        none none (some 0) 10
      = (.insufficientBalance 100 150,
         [⟨1, 5, "IN", 100⟩, ⟨2, 6, "OUT", 150⟩]) := by
  have h1 : ¬ (("IN" : String) = "OUT") := by decide
  norm_num [updateTransaction, List.find?, getBalanceExcludingTransaction,
    signedAmount, h1]

/-- C10 amended: a falsy amount field (0 or absent) is never rejected as a
non-positive amount; the update proceeds with the existing row's amount and
succeeds whenever the remaining checks pass (non-future timestamp, storable
type, and — for OUT — the excluding-balance gate); a strictly negative
supplied amount is rejected with the non-positive-amount validation error. -/
theorem updateTransaction_falsy_amount_spec :
    (∀ (log : List Txn) (i : Nat) (ts : Option Int) (ty : Option String)
        (now : Int),
        (updateTransaction log i ts ty (some 0) now).1
            ≠ UpdateResp.nonPositiveAmount
        ∧ (updateTransaction log i ts ty none now).1
            ≠ UpdateResp.nonPositiveAmount)
    ∧ (∀ (log : List Txn) (i : Nat) (now : Int) (txn : Txn),
        log.find? (fun x => x.id = i) = some txn →
        txn.timestamp ≤ now →
        txn.type = "IN" ∨ txn.type = "OUT" →
        (txn.type = "OUT" →
          ¬ getBalanceExcludingTransaction log txn.timestamp i < txn.amount) →
        updateTransaction log i none none (some 0) now
          = (.updated ⟨i, txn.timestamp, txn.type, txn.amount⟩,
             log.map (fun x =>
               if x.id = i then ⟨i, txn.timestamp, txn.type, txn.amount⟩
               else x)))
    ∧ (∀ (log : List Txn) (i : Nat) (now : Int) (txn : Txn) (a : Rat),
        log.find? (fun x => x.id = i) = some txn →
        txn.timestamp ≤ now →
        a < 0 →
        updateTransaction log i none none (some a) now
          = (.nonPositiveAmount, log)) := by
  refine ⟨?_, ?_, ?_⟩
  · intro log i ts ty now
    constructor <;>
    · unfold updateTransaction
      cases hf : log.find? (fun x => x.id = i) with
      | none => simp
      | some ex =>
        simp only
        split_ifs <;> simp_all
  · intro log i now txn hf hnow hty hgate
    have hnl : ¬ now < txn.timestamp := not_lt.mpr hnow
    rcases hty with hIN | hOUT
    · have hio : ¬ (txn.type = "OUT") := by rw [hIN]; decide
      simp [updateTransaction, hf, hnl, hio, hIN]
    · have hbal := hgate hOUT
      simp [updateTransaction, hf, hnl, hOUT, hbal]
  · intro log i now txn a hf hnow hneg
    have hnl : ¬ now < txn.timestamp := not_lt.mpr hnow
    simp [updateTransaction, hf, hnl, ne_of_lt hneg, le_of_lt hneg]

/-- Witness for amended C10: updating the lone IN 100 transaction with amount
0 succeeds keeping amount 100, and updating it with amount −5 is rejected as
non-positive. -/
theorem updateTransaction_falsy_amount_spec_witness :
    updateTransaction [⟨1, 3, "IN", 100⟩] 1 none none (some 0) 10
      = (.updated ⟨1, 3, "IN", 100⟩, [⟨1, 3, "IN", 100⟩])
    ∧ updateTransaction [⟨1, 3, "IN", 100⟩] 1 none none (some (-5)) 10
      = (.nonPositiveAmount, [⟨1, 3, "IN", 100⟩]) := by
  constructor
  · have h := updateTransaction_falsy_amount_spec.2.1
      [⟨1, 3, "IN", 100⟩] 1 10 ⟨1, 3, "IN", 100⟩ rfl (by norm_num)
      (Or.inl rfl) (fun h => absurd h (by decide))
    simpa using h
  · exact updateTransaction_falsy_amount_spec.2.2
      [⟨1, 3, "IN", 100⟩] 1 10 ⟨1, 3, "IN", 100⟩ (-5) rfl (by norm_num)
      (by norm_num)

/-- One candidate record of a bulk request body; `none` is an absent field
(falsy fields behave the same, as in single create). -/
structure BulkRecord where
  timestamp : Option Int
  type : Option String
  amount : Option Rat
deriving DecidableEq, Repr

/-- The per-record validation loop of `createBulkTransactions`
(transaction-controller, lines 420-446), the same checks as single create:
missing/falsy field, type in {IN, OUT}, valid non-future timestamp, positive
amount.  Returns the parsed (timestamp, type, amount) on success. -/
def validateBulkRecord (now : Int) (r : BulkRecord) :
    Option (Int × String × Rat) :=
  match r.timestamp, r.type, r.amount with
  | some ts, some ty, some am =>
    if ty = "" ∨ am = 0 then none
    else if ¬ (ty = "IN" ∨ ty = "OUT") then none
    else if now < ts then none
    else if am ≤ 0 then none
    else some (ts, ty, am)
  | _, _, _ => none

/-- The store call `createMany` materialises each validated record as a row with the next
auto-assigned serial id (prisma/migrations: `"id" SERIAL`). -/
def assignIds : Nat → List (Int × String × Rat) → List Txn
  | _, [] => []
  | n, v :: vs => ⟨n, v.1, v.2.1, v.2.2⟩ :: assignIds (n + 1) vs

instance bulkKeyLeDecidable :
    DecidableRel (fun (a b : Int × String × Rat) => a.1 ≤ b.1) :=
  fun a b => Int.decLe a.1 b.1

/-- The validate-all-first loop (lines 419-446): records are checked in
order, the first invalid one aborts the whole request before any write, and
on success the parsed records are collected in input order. -/
def validateAll (now : Int) : List BulkRecord → Option (List (Int × String × Rat))
  | [] => some []
  | r :: rs =>
    match validateBulkRecord now r, validateAll now rs with
    | some v, some vs => some (v :: vs)
    | _, _ => none

/-- The caller-visible outcomes of `createBulkTransactions`. -/
inductive BulkResp where
  | emptyBatch
  | validationFailed
  | done (count : Nat)
deriving DecidableEq, Repr

/-- Function `createBulkTransactions` (transaction-controller, lines 409-477): reject
an empty or missing array; validate every record before any write, failing
the whole batch on the first invalid one; sort the validated records by
timestamp ascending (`sort((a, b) => a.timestamp - b.timestamp)`, a stable
numeric sort); insert them in batches of 1000 with `skipDuplicates: true` —
but the only unique constraint on `"Transaction"` is the auto-assigned id
(prisma/migrations), which is fresh for every inserted row, so no row is ever
skipped and the chunks concatenate to the whole sorted list; answer with the
summed created count.  No balance gate is consulted anywhere. -/
def createBulkTransactions (log : List Txn) (nextId : Nat)
    (records : List BulkRecord) (now : Int) : BulkResp × List Txn :=
  if records.isEmpty then (.emptyBatch, log)
  else
    match validateAll now records with
    | none => (.validationFailed, log)
    | some vals =>
      let newRows :=
        assignIds nextId (List.insertionSort (fun a b => a.1 ≤ b.1) vals)
      (.done newRows.length, log ++ newRows)

theorem validateAll_eq_none_of_mem (now : Int) :
    ∀ (l : List BulkRecord) (r : BulkRecord), r ∈ l →
      validateBulkRecord now r = none → validateAll now l = none := by
  intro l
  induction l with
  | nil => intro r hr; cases hr
  | cons x xs ih =>
    intro r hr hnone
    rcases List.mem_cons.mp hr with h | h
    · subst h
      simp [validateAll, hnone]
    · cases hx : validateBulkRecord now x with
      | none => simp [validateAll, hx]
      | some y => simp [validateAll, hx, ih r h hnone]

theorem length_of_validateAll_eq_some (now : Int) :
    ∀ (l : List BulkRecord) (l2 : List (Int × String × Rat)),
      validateAll now l = some l2 → l2.length = l.length := by
  intro l
  induction l with
  | nil =>
    intro l2 h
    simp [validateAll] at h
    simp [← h]
  | cons x xs ih =>
    intro l2 h
    cases hx : validateBulkRecord now x with
    | none => simp [validateAll, hx] at h
    | some y =>
      cases hxs : validateAll now xs with
      | none => simp [validateAll, hx, hxs] at h
      | some ys =>
        simp [validateAll, hx, hxs] at h
        simp [← h, ih ys hxs]

theorem length_assignIds (n : Nat) (l : List (Int × String × Rat)) :
    (assignIds n l).length = l.length := by
  induction l generalizing n with
  | nil => rfl
  | cons v vs ih => simp [assignIds, ih]

theorem map_timestamp_assignIds (n : Nat) (l : List (Int × String × Rat)) :
    (assignIds n l).map Txn.timestamp = l.map (fun v => v.1) := by
  induction l generalizing n with
  | nil => rfl
  | cons v vs ih => simp [assignIds, ih]

/-- C8 fails on the code as stated: a batch of two exactly identical valid
records (IN 100 at instant 1) is persisted as two rows with identical
timestamp, type and amount — `skipDuplicates` can only skip unique-constraint
conflicts, and the sole unique constraint is the freshly assigned id — so the
created count is 2, not the 1 that "exact duplicates skipped" would give. -/
theorem createBulkTransactions_inserts_duplicates :
    createBulkTransactions [] 1
        [⟨some 1, some "IN", some 100⟩, ⟨some 1, some "IN", some 100⟩] 10
      = (.done 2, [⟨1, 1, "IN", 100⟩, ⟨2, 1, "IN", 100⟩])
    ∧ ([⟨1, 1, "IN", 100⟩, ⟨2, 1, "IN", 100⟩] : List Txn).map
        (fun x => (x.timestamp, x.type, x.amount))
      = [(1, "IN", 100), (1, "IN", 100)] := by
  have h1 : ¬ (("IN" : String) = "") := by decide
  refine ⟨?_, by norm_num⟩
  norm_num [createBulkTransactions, validateAll, validateBulkRecord,
    assignIds, List.insertionSort, List.orderedInsert, h1]

/-- C8 amended: if any record of a (nonempty) batch fails the per-record
validation of single create, the whole batch fails with the validation error
and the log is unchanged; if all records are valid, the batch succeeds with
created count equal to the batch size, appending exactly the validated
records sorted by timestamp ascending — with no per-record balance gate (the
result never depends on any balance).  Exact duplicates are not skipped: they
are inserted as distinct rows, as the counterexample shows. -/
theorem createBulkTransactions_spec :
    (∀ (log : List Txn) (nextId : Nat) (records : List BulkRecord) (now : Int)
        (r : BulkRecord),
        r ∈ records → validateBulkRecord now r = none →
        createBulkTransactions log nextId records now
          = (.validationFailed, log))
    ∧ (∀ (log : List Txn) (nextId : Nat) (records : List BulkRecord)
        (now : Int) (vals : List (Int × String × Rat)),
        records ≠ [] →
        validateAll now records = some vals →
        createBulkTransactions log nextId records now
          = (.done records.length,
             log ++ assignIds nextId
               (List.insertionSort (fun a b => a.1 ≤ b.1) vals))
        ∧ ((assignIds nextId
              (List.insertionSort (fun a b => a.1 ≤ b.1) vals)).map
            Txn.timestamp).Pairwise (· ≤ ·)) := by
  constructor
  · intro log nextId records now r hmem hnone
    have hne : records ≠ [] := by
      intro h
      rw [h] at hmem
      cases hmem
    have hemp : records.isEmpty = false := by
      cases records with
      | nil => exact absurd rfl hne
      | cons x xs => rfl
    simp [createBulkTransactions, hemp,
      validateAll_eq_none_of_mem now records r hmem hnone]
  · intro log nextId records now vals hne hval
    have hemp : records.isEmpty = false := by
      cases records with
      | nil => exact absurd rfl hne
      | cons x xs => rfl
    constructor
    · have hlen : (assignIds nextId
          (List.insertionSort (fun a b => a.1 ≤ b.1) vals)).length
            = records.length := by
        rw [length_assignIds, List.length_insertionSort]
        exact length_of_validateAll_eq_some now records vals hval
      simp [createBulkTransactions, hemp, hval, hlen]
    · letI : IsTotal (Int × String × Rat) (fun a b => a.1 ≤ b.1) :=
        ⟨fun a b => le_total a.1 b.1⟩
      letI : IsTrans (Int × String × Rat) (fun a b => a.1 ≤ b.1) :=
        ⟨fun _ _ _ hab hbc => le_trans hab hbc⟩
      have hsort := List.sorted_insertionSort (fun a b => a.1 ≤ b.1) vals
      rw [map_timestamp_assignIds]
      exact List.pairwise_map.mpr hsort

/-- Witness for amended C8: a batch containing a negative-amount record is
rejected wholesale with the log untouched, and an all-valid two-record batch
is created in timestamp order with count 2. -/
theorem createBulkTransactions_spec_witness :
    createBulkTransactions [] 1
        [⟨some 1, some "IN", some 100⟩, ⟨some 2, some "OUT", some (-3)⟩] 10
      = (.validationFailed, [])
    ∧ createBulkTransactions [] 1
        [⟨some 2, some "IN", some 5⟩, ⟨some 1, some "IN", some 7⟩] 10
      = (.done 2, [⟨1, 1, "IN", 7⟩, ⟨2, 2, "IN", 5⟩]) := by
  constructor
  · exact createBulkTransactions_spec.1 [] 1
      [⟨some 1, some "IN", some 100⟩, ⟨some 2, some "OUT", some (-3)⟩] 10
      ⟨some 2, some "OUT", some (-3)⟩ (by simp)
      (by norm_num [validateBulkRecord])
  · have h := createBulkTransactions_spec.2 [] 1
      [⟨some 2, some "IN", some 5⟩, ⟨some 1, some "IN", some 7⟩] 10
      [(2, "IN", 5), (1, "IN", 7)] (by simp)
      (by
        have h1 : ¬ (("IN" : String) = "") := by decide
        norm_num [validateAll, validateBulkRecord, h1])
    have h2 := h.1
    norm_num [List.insertionSort, List.orderedInsert, assignIds] at h2
    exact h2

/-- Milliseconds per calendar day.  `setHours(0,0,0,0)` snaps an instant to
the start of its day; days are modelled as fixed-length windows on the
integer millisecond axis. -/
def msPerDay : Int := 86400000

/-- The calendar day containing instant t (floor division, so pre-epoch
instants land on negative days). -/
def dayIndex (t : Int) : Int := t.fdiv msPerDay

/-- The first instant of day d. -/
def dayStart (d : Int) : Int := d * msPerDay

/-- One `DailySummary` row as upserted by the recalculator (the `date` key is
kept beside it in the table). -/
structure Summary where
  balance : Rat
  percentChange : Rat
  transactionCount : Nat
  inAmount : Rat
  outAmount : Rat
deriving DecidableEq, Repr

/-- Rounding as in `parseFloat(x.toFixed(2))`: to 2 decimal places, modelled as
rounding to the nearest multiple of 1/100. -/
def round2 (q : Rat) : Rat := (round (q * 100) : Int) / 100

theorem foldl_add_map (f : Txn → Rat) (l : List Txn) (a : Rat) :
    l.foldl (fun s x => s + f x) a = a + (l.map f).sum := by
  induction l generalizing a with
  | nil => simp
  | cons x xs ih => simp [List.foldl_cons, ih (a + f x), add_assoc]

/-- The loop body of `recalculateFromTimestamp` for one day d (utility.js,
lines 17-80): balance as the signed sum over `timestamp < nextDate`, the
day-window aggregates over `date <= timestamp < nextDate`, the previous
balance over `timestamp < date`, and the percent-change formula with its
division-by-zero guard and 2-decimal rounding. -/
def summaryRow (log : List Txn) (d : Int) : Summary :=
  let nextStart := dayStart (d + 1)
  let currentBalance :=
    (log.filter (fun x => x.timestamp < nextStart)).foldl
      (fun s x => s + signedAmount x) 0
  let dayTxns :=
    log.filter (fun x => dayStart d ≤ x.timestamp ∧ x.timestamp < nextStart)
  let inAmount :=
    (dayTxns.filter (fun x => x.type = "IN")).foldl (fun s x => s + x.amount) 0
  let outAmount :=
    (dayTxns.filter (fun x => x.type = "OUT")).foldl (fun s x => s + x.amount) 0
  let previousBalance :=
    (log.filter (fun x => x.timestamp < dayStart d)).foldl
      (fun s x => s + signedAmount x) 0
  let percentChange :=
    if previousBalance = 0 then 0
    else round2 ((currentBalance - previousBalance) / previousBalance * 100)
  ⟨currentBalance, percentChange, dayTxns.length, inAmount, outAmount⟩

/-- The affectedDates loop (utility.js, lines 12-15): one date per calendar
day from the day containing `fromTimestamp` through the current day,
inclusive (empty when that range is empty). -/
def affectedDays (t now : Int) : List Int :=
  (List.range (dayIndex now - dayIndex t + 1).toNat).map
    (fun (i : Nat) => dayIndex t + (i : Int))

/-- Upsert into the DailySummary table keyed by date: replace the row of an
existing date, insert a fresh row otherwise. -/
def upsertSummary (tb : List (Int × Summary)) (d : Int) (row : Summary) :
    List (Int × Summary) :=
  if tb.any (fun p => p.1 = d) then
    tb.map (fun p => if p.1 = d then (d, row) else p)
  else tb ++ [(d, row)]

/-- Function `recalculateFromTimestamp` (utility.js, lines 3-85): upsert one summary
row per affected day, in ascending day order, into the DailySummary table.
(The trailing `markInvalidTransactions()` call of line 84 is the detector
embedded separately above.) -/
def recalculateFromTimestamp (log : List Txn) (t now : Int)
    (tb : List (Int × Summary)) : List (Int × Summary) :=
  (affectedDays t now).foldl (fun acc d => upsertSummary acc d (summaryRow log d)) tb

/-- The day-d row as §4.5 of the spec words it: balance = B(end of d) (the
last instant of day d), aggregates over transactions with timestamp in
[start of d, start of d+1), percentChange = 0 when the previous day's end
balance is 0, else the rounded percentage against it. -/
def summaryRowSpec (log : List Txn) (d : Int) : Summary :=
  let balance := getBalanceAtTimestamp log (dayStart (d + 1) - 1)
  let window :=
    log.filter (fun x => dayStart d ≤ x.timestamp ∧ x.timestamp < dayStart (d + 1))
  let inAmount := ((window.filter (fun x => x.type = "IN")).map (fun x => x.amount)).sum
  let outAmount := ((window.filter (fun x => x.type = "OUT")).map (fun x => x.amount)).sum
  let previousBalance := getBalanceAtTimestamp log (dayStart d - 1)
  let percentChange :=
    if previousBalance = 0 then 0
    else round2 ((balance - previousBalance) / previousBalance * 100)
  ⟨balance, percentChange, window.length, inAmount, outAmount⟩

theorem summaryRow_eq_spec (log : List Txn) (d : Int) :
    summaryRow log d = summaryRowSpec log d := by
  have hA : log.filter (fun x => x.timestamp < dayStart (d + 1))
      = log.filter (fun x => x.timestamp ≤ dayStart (d + 1) - 1) := by
    apply List.filter_congr
    intro a _
    simp only [decide_eq_decide]
    omega
  have hB : log.filter (fun x => x.timestamp < dayStart d)
      = log.filter (fun x => x.timestamp ≤ dayStart d - 1) := by
    apply List.filter_congr
    intro a _
    simp only [decide_eq_decide]
    omega
  simp only [summaryRow, summaryRowSpec, getBalanceAtTimestamp, hA, hB,
    foldl_add_map, foldl_add_signed, zero_add]

theorem find?_map_replace_self (d : Int) (row : Summary) :
    ∀ (tb : List (Int × Summary)), tb.any (fun p => p.1 = d) = true →
      (tb.map (fun p => if p.1 = d then (d, row) else p)).find?
          (fun p => p.1 = d) = some (d, row) := by
  intro tb
  induction tb with
  | nil => intro h; simp at h
  | cons p ps ih =>
    intro h
    by_cases hp : p.1 = d
    · simp [hp]
    · have h2 : ps.any (fun p => p.1 = d) = true := by
        simpa [List.any_cons, hp] using h
      simp [hp, ih h2]

theorem find?_map_replace_ne (d k : Int) (row : Summary) (hk : ¬ k = d) :
    ∀ (tb : List (Int × Summary)),
      (tb.map (fun p => if p.1 = d then (d, row) else p)).find?
          (fun p => p.1 = k)
        = tb.find? (fun p => p.1 = k) := by
  intro tb
  induction tb with
  | nil => rfl
  | cons p ps ih =>
    by_cases hp : p.1 = d
    · have hdk : ¬ ((d, row).1 = k) := fun h => hk h.symm
      have hpk : ¬ (p.1 = k) := by rw [hp]; exact fun h => hk h.symm
      rw [List.map_cons, if_pos hp, List.find?_cons_of_neg _ (by simpa using hdk),
        List.find?_cons_of_neg _ (by simpa using hpk)]
      exact ih
    · rw [List.map_cons, if_neg hp]
      by_cases hpk : p.1 = k
      · rw [List.find?_cons_of_pos _ (by simpa using hpk),
          List.find?_cons_of_pos _ (by simpa using hpk)]
      · rw [List.find?_cons_of_neg _ (by simpa using hpk),
          List.find?_cons_of_neg _ (by simpa using hpk)]
        exact ih

theorem find?_append_single (d k : Int) (row : Summary) (hk : ¬ k = d) :
    ∀ (tb : List (Int × Summary)),
      (tb ++ [(d, row)]).find? (fun p => p.1 = k)
        = tb.find? (fun p => p.1 = k) := by
  intro tb
  induction tb with
  | nil =>
    have hdk : ¬ d = k := fun h => hk h.symm
    simp [hdk]
  | cons p ps ih =>
    by_cases hpk : p.1 = k
    · simp [hpk]
    · simp [hpk, ih]

theorem find?_upsertSummary_self (tb : List (Int × Summary)) (d : Int)
    (row : Summary) :
    (upsertSummary tb d row).find? (fun p => p.1 = d) = some (d, row) := by
  unfold upsertSummary
  split
  case isTrue h => exact find?_map_replace_self d row tb h
  case isFalse h =>
    have hnone : tb.find? (fun p => p.1 = d) = none := by
      rw [List.find?_eq_none]
      intro x hx hpx
      apply h
      rw [List.any_eq_true]
      exact ⟨x, hx, hpx⟩
    induction tb with
    | nil => simp
    | cons p ps ih =>
      have hp : ¬ (p.1 = d) := by
        intro hpd
        simp [List.find?_cons, hpd] at hnone
      have hps : ps.find? (fun p => p.1 = d) = none := by
        simpa [List.find?_cons, hp] using hnone
      have hanyps : ¬ ps.any (fun p => p.1 = d) = true := by
        intro ha
        rcases List.any_eq_true.mp ha with ⟨x, hx, hpx⟩
        have := List.find?_eq_none.mp hps x hx
        exact this hpx
      simpa [List.cons_append, List.find?_cons, hp] using ih hanyps hps

theorem find?_upsertSummary_ne (tb : List (Int × Summary)) (d k : Int)
    (row : Summary) (hk : ¬ k = d) :
    (upsertSummary tb d row).find? (fun p => p.1 = k)
      = tb.find? (fun p => p.1 = k) := by
  unfold upsertSummary
  split
  case isTrue h => exact find?_map_replace_ne d k row hk tb
  case isFalse h => exact find?_append_single d k row hk tb

theorem find?_foldl_upsert (f : Int → Summary) :
    ∀ (ds : List Int) (tb : List (Int × Summary)) (k : Int),
      (ds.foldl (fun acc d => upsertSummary acc d (f d)) tb).find?
          (fun p => p.1 = k)
        = if k ∈ ds then some (k, f k) else tb.find? (fun p => p.1 = k) := by
  intro ds
  induction ds with
  | nil => simp
  | cons d ds ih =>
    intro tb k
    simp only [List.foldl_cons]
    rw [ih]
    by_cases hin : k ∈ ds
    · simp [hin, List.mem_cons]
    · by_cases hkd : k = d
      · subst hkd
        simp [hin, List.mem_cons, find?_upsertSummary_self]
      · simp [hin, hkd, List.mem_cons, find?_upsertSummary_ne tb d k _ hkd]

/-- C7: the recalculator touches exactly the calendar days from the day
containing t through the day containing now, in strictly ascending order;
each such day's row is the spec's row — balance B(end of d), the
[start d, start d+1) window aggregates, and the guarded, 2-decimal-rounded
percent change against the previous day's balance — and each row is upserted
by date: after the run the table answers every affected date with exactly
that row and every other date exactly as before. -/
theorem recalculateFromTimestamp_spec :
    (∀ (log : List Txn) (d : Int), summaryRow log d = summaryRowSpec log d)
    ∧ (∀ (t now d : Int),
        d ∈ affectedDays t now ↔ (dayIndex t ≤ d ∧ d ≤ dayIndex now))
    ∧ (∀ (t now : Int), (affectedDays t now).Pairwise (· < ·))
    ∧ (∀ (log : List Txn) (t now : Int) (tb : List (Int × Summary)) (d : Int),
        d ∈ affectedDays t now →
        (recalculateFromTimestamp log t now tb).find? (fun p => p.1 = d)
          = some (d, summaryRowSpec log d))
    ∧ (∀ (log : List Txn) (t now : Int) (tb : List (Int × Summary)) (d : Int),
        d ∉ affectedDays t now →
        (recalculateFromTimestamp log t now tb).find? (fun p => p.1 = d)
          = tb.find? (fun p => p.1 = d)) := by
  have hmem : ∀ (t now d : Int),
      d ∈ affectedDays t now ↔ (dayIndex t ≤ d ∧ d ≤ dayIndex now) := by
    intro t now d
    simp only [affectedDays, List.mem_map, List.mem_range]
    constructor
    · rintro ⟨i, hi, rfl⟩
      omega
    · intro h
      exact ⟨(d - dayIndex t).toNat, by omega, by omega⟩
  refine ⟨summaryRow_eq_spec, hmem, ?_, ?_, ?_⟩
  · intro t now
    refine List.Pairwise.map _ (fun a b (h : a < b) => ?_)
      (List.pairwise_lt_range _)
    omega
  · intro log t now tb d hd
    rw [recalculateFromTimestamp, find?_foldl_upsert, if_pos hd,
      summaryRow_eq_spec]
  · intro log t now tb d hd
    rw [recalculateFromTimestamp, find?_foldl_upsert, if_neg hd]

/-- Witness for C7 on the one-transaction log [IN 100 @ instant 0] with
t = 0 and now = one day later: day 0 is affected and receives its spec row,
day 5 is unaffected and the (empty) table still answers nothing for it. -/
theorem recalculateFromTimestamp_spec_witness :
    (recalculateFromTimestamp [⟨1, 0, "IN", 100⟩] 0 86400000 []).find?
        (fun p => p.1 = 0)
      = some (0, summaryRowSpec [⟨1, 0, "IN", 100⟩] 0)
    ∧ (recalculateFromTimestamp [⟨1, 0, "IN", 100⟩] 0 86400000 []).find?
        (fun p => p.1 = 5)
      = ([] : List (Int × Summary)).find? (fun p => p.1 = 5) := by
  constructor
  · exact recalculateFromTimestamp_spec.2.2.2.1 [⟨1, 0, "IN", 100⟩] 0 86400000
      [] 0 (by decide)
  · exact recalculateFromTimestamp_spec.2.2.2.2 [⟨1, 0, "IN", 100⟩] 0 86400000
      [] 5 (by decide)

end TransactionTracker
